import Mathlib

/-!
# Verification of the rpc-proxy rate limiter, server construction and routing

Shallow embedding of `rinor/rpc-proxy` (files `main.go`, `proxy.go` and the
`limiters` type), together with the parts of its dependencies that the code
under verification calls into:

* `golang.org/x/time/rate` — the token-bucket limiter (`rate.Every`,
  `rate.NewLimiter`, `(*rate.Limiter).Allow`).  Its `float64` token
  arithmetic is idealised as exact rationals (`ℚ`); durations are modelled
  in exact seconds, Go `time.Duration` values in integer nanoseconds.
* `net/url` — `url.Parse`, `(*url.URL).Parse` and
  `(*url.URL).ResolveReference`, restricted to the scheme/host/path
  components (no user info, query or fragment, which the proxy never uses).

Go pointer mutation (a `*rate.Limiter` stored in the visitors map and
mutated through `Allow`) is translated to explicit state passing: every
operation returns the updated registry.  A Go runtime panic (integer
division by zero) is translated to `Option.none`.
-/

namespace RpcProxy

/-- Models `rate.Limit` from `golang.org/x/time/rate`: either the infinite
rate `rate.Inf` (a `math.MaxFloat64` sentinel in Go) or a finite rate in
tokens per second, idealised as an exact rational. -/
inductive RLimit where
  | inf : RLimit
  | finite : ℚ → RLimit
deriving DecidableEq

/-- Models `rate.Limiter` state from `golang.org/x/time/rate`: the rate,
the burst capacity, the current token count and the time of the last
update (`last`), in seconds.  The Go zero `time.Time` stored by
`rate.NewLimiter` is modelled as time `0`. -/
structure RateLimiter where
  limit : RLimit
  burst : Int
  tokens : ℚ
  last : ℚ
deriving DecidableEq

/-- `time.Minute` in nanoseconds (Go `time.Duration` is an `int64`
nanosecond count). -/
def nsPerMinute : Int := 60000000000

/-- Models `rate.Every` from `golang.org/x/time/rate`: a non-positive
interval yields `rate.Inf`; otherwise the rate is one token per
`interval` nanoseconds, i.e. `10^9 / interval` tokens per second
(in Go, `Limit(1 / interval.Seconds())`). -/
def rateEvery (interval : Int) : RLimit :=
  if interval ≤ 0 then RLimit.inf
  else RLimit.finite (1000000000 / (interval : ℚ))

/-- Models `rate.NewLimiter(r, b)`: tokens start at `0` and `last` at the
zero time, so the first `Allow` call at wall-clock time `now` sees
`min burst (now * rate)` tokens (effectively a full bucket, since real
wall-clock times are enormous relative to any configured rate). -/
def newLimiter (r : RLimit) (b : Int) : RateLimiter :=
  { limit := r, burst := b, tokens := 0, last := 0 }

/-- Models `(*rate.Limiter).Allow()` at time `now`, i.e. `AllowN(now, 1)`
followed by `reserveN(now, 1, 0)` in `golang.org/x/time/rate`:
an infinite rate always allows without touching the state; otherwise the
bucket is advanced (`advance`): tokens grow by `elapsed * rate`, capped
at `burst`, one token is tentatively consumed, and the reservation
succeeds iff `1 ≤ burst` and the remaining tokens are non-negative.
On success the new token count and `last := now` are stored; on failure
the state is unchanged except that `last` is clamped down to `now` when
the clock ran backwards (the library's `lim.last = last` branch). -/
def allow (l : RateLimiter) (now : ℚ) : Bool × RateLimiter :=
  match l.limit with
  | RLimit.inf => (true, l)
  | RLimit.finite r =>
    let last := if now < l.last then now else l.last
    let elapsed := now - last
    let tokens := min (l.burst : ℚ) (l.tokens + elapsed * r)
    let tokens1 := tokens - 1
    if 1 ≤ l.burst ∧ 0 ≤ tokens1 then
      (true, { l with tokens := tokens1, last := now })
    else
      (false, { l with last := last })

/-- Models the `limiters` struct of `proxy.go`: the exempt IP set
`noLimitIPs` and the per-IP visitors map, modelled as an association
list.  The `sync.RWMutex` has no sequential content. -/
structure Limiters where
  noLimitIPs : List String
  visitors : List (String × RateLimiter)
deriving DecidableEq

/-- Replaces the limiter stored under `ip` (the value model of mutating
the `*rate.Limiter` that the Go map holds for `ip`). -/
def setVisitor : List (String × RateLimiter) → String → RateLimiter →
    List (String × RateLimiter)
  | [], _, _ => []
  | (k, v) :: rest, ip, l =>
    if k = ip then (k, l) :: rest else (k, v) :: setVisitor rest ip l

/-- The limiter `tryAddVisitor` builds for a fresh IP:
`rate.NewLimiter(rate.Every(time.Minute / rpm), rpm / 10)`, where both
Go divisions truncate toward zero (`Int.tdiv`). -/
def freshLimiter (rpm : Int) : RateLimiter :=
  newLimiter (rateEvery (Int.tdiv nsPerMinute rpm)) (Int.tdiv rpm 10)

/-- Models `limiters.tryAddVisitor` from `proxy.go`: under the write lock,
re-check the map; if the IP is present return its limiter with
`added = false`; otherwise build `freshLimiter rpm` and register it.
With `rpm = 0` the Go expression `time.Minute / time.Duration(0)` panics
with "integer divide by zero", modelled as `none`. -/
def tryAddVisitor (ls : Limiters) (ip : String) (rpm : Int) :
    Option (RateLimiter × Bool × Limiters) :=
  match ls.visitors.lookup ip with
  | some l => some (l, false, ls)
  | none =>
    if rpm = 0 then none
    else
      some (freshLimiter rpm, true,
        { ls with visitors := (ip, freshLimiter rpm) :: ls.visitors })

/-- Models `limiters.getVisitor` from `proxy.go`: a read-locked lookup,
falling back to `tryAddVisitor` when the IP has no limiter yet. -/
def getVisitor (ls : Limiters) (ip : String) (rpm : Int) :
    Option (RateLimiter × Bool × Limiters) :=
  match ls.visitors.lookup ip with
  | some l => some (l, false, ls)
  | none => tryAddVisitor ls ip rpm

/-- Models `limiters.AllowVisitor` from `proxy.go` at time `now`: exempt
IPs short-circuit to `(allowed = true, added = false)` before any map
access; otherwise the visitor limiter is fetched or created and its
`Allow()` result is returned, the mutated limiter written back.  `none`
models the Go panic propagating out of `tryAddVisitor`. -/
def AllowVisitor (ls : Limiters) (ip : String) (rpm : Int) (now : ℚ) :
    Option (Bool × Bool × Limiters) :=
  if ip ∈ ls.noLimitIPs then
    some (true, false, ls)
  else
    match getVisitor ls ip rpm with
    | none => none
    | some (l, added, ls1) =>
      let res := allow l now
      some (res.1, added, { ls1 with visitors := setVisitor ls1.visitors ip res.2 })

/-- First component (`allowed`) of an `AllowVisitor` result. -/
def allowedOf (o : Option (Bool × Bool × Limiters)) : Option Bool :=
  o.map (fun x => x.1)

/-- `k` successive `AllowVisitor` calls for the same IP at the same
instant `now`, threading the registry state; returns how many calls were
allowed together with the final registry (`none` if any call panics). -/
def allowVisitorN (ls : Limiters) (ip : String) (rpm : Int) (now : ℚ) :
    Nat → Option (Nat × Limiters)
  | 0 => some (0, ls)
  | k + 1 =>
    match AllowVisitor ls ip rpm now with
    | none => none
    | some (ok, _, ls1) =>
      match allowVisitorN ls1 ip rpm now k with
      | none => none
      | some (c, ls2) => some ((if ok then 1 else 0) + c, ls2)

/-! ## Model of `net/url` (scheme/host/path fragment)

`NewServer` in `proxy.go` calls `url.Parse(cfg.URL)` and then — because
the local variable `url` shadows the `net/url` package from line 26 on —
`url.Parse(cfg.WSURL)` resolves to the *method* `(*url.URL).Parse` on the
already-parsed HTTP origin, which parses `cfg.WSURL` as a reference and
resolves it against that origin.  The model below covers URLs made of
scheme, host and path (no user info, query, fragment or escaping, none of
which the proxy's configuration values use). -/

/-- A parsed URL, restricted to the components the proxy uses. -/
structure URLModel where
  scheme : String
  host : String
  path : String
deriving DecidableEq

/-- Control characters are the one parse failure `net/url` reports on the
kind of strings the proxy receives ("net/url: invalid control character
in URL"). -/
def isCtlChar (c : Char) : Bool :=
  c.toNat < 0x20 || c.toNat == 0x7f

/-- Splits a character list at the first occurrence of "://", returning
the part before it and the part after it (`none` when absent). -/
def schemeSplit (acc : List Char) : List Char → Option (List Char × List Char)
  | ':' :: '/' :: '/' :: rest => some (acc.reverse, rest)
  | c :: rest => schemeSplit (c :: acc) rest
  | [] => none

/-- Valid scheme per `net/url.getScheme`: ALPHA followed by
ALPHA / DIGIT / "+" / "-" / ".". -/
def validScheme (s : List Char) : Bool :=
  match s with
  | [] => false
  | c :: rest =>
    c.isAlpha && rest.all (fun d => d.isAlphanum || d = '+' || d = '-' || d = '.')

/-- Models `net/url.Parse` on scheme/host/path URLs: reject control
characters; a string containing "://" with a valid scheme is split into
scheme, host (up to the first slash) and path; anything else parses as a
relative reference carried entirely in the path. -/
def urlParse (s : String) : Except String URLModel :=
  if s.toList.any isCtlChar then
    Except.error "net/url: invalid control character in URL"
  else
    match schemeSplit [] s.toList with
    | none => Except.ok { scheme := "", host := "", path := s }
    | some (sch, rest) =>
      if validScheme sch then
        Except.ok
          { scheme := String.mk sch
            host := String.mk (rest.takeWhile (fun c => c ≠ '/'))
            path := String.mk (rest.dropWhile (fun c => c ≠ '/')) }
      else
        Except.error "net/url: missing or invalid protocol scheme"

/-- The prefix of `s` up to and including its last slash (empty when `s`
has no slash) — `base[:strings.LastIndex(base, "/")+1]` in
`net/url.resolvePath`. -/
def upToLastSlash (s : List Char) : List Char :=
  (s.reverse.dropWhile (fun c => c ≠ '/')).reverse

/-- Splits a character list on slashes (`strings.Split(full, "/")`). -/
def splitSlash : List Char → List (List Char)
  | [] => [[]]
  | '/' :: rest => [] :: splitSlash rest
  | c :: rest =>
    match splitSlash rest with
    | [] => [[c]]
    | seg :: segs => (c :: seg) :: segs

/-- Joins segments with slashes (`strings.Join(dst, "/")`). -/
def joinSlash : List (List Char) → List Char
  | [] => []
  | [s] => s
  | s :: rest => s ++ '/' :: joinSlash rest

/-- Dot-segment removal from `net/url.resolvePath`: "." is dropped, ".."
pops the previously kept segment, everything else is kept.  The
accumulator holds kept segments in reverse. -/
def removeDotSegs (acc : List (List Char)) :
    List (List Char) → List (List Char)
  | [] => acc.reverse
  | e :: rest =>
    if e = ['.'] then removeDotSegs acc rest
    else if e = ['.', '.'] then removeDotSegs (acc.drop 1) rest
    else removeDotSegs (e :: acc) rest

/-- Models `net/url.resolvePath base ref`: merge the reference path with
the base path (relative references replace everything after the base's
last slash), remove dot segments, keep a trailing slash after a final
dot segment, and force a single leading slash. -/
def resolvePath (base ref : String) : String :=
  let b := base.toList
  let r := ref.toList
  let full : List Char :=
    if r = [] then b
    else
      match r with
      | '/' :: _ => r
      | _ => upToLastSlash b ++ r
  if full = [] then ""
  else
    let src := splitSlash full
    let dst := removeDotSegs [] src
    let dst :=
      if src.getLast? = some ['.'] ∨ src.getLast? = some ['.', '.'] then
        dst ++ [[]]
      else dst
    let joined := joinSlash dst
    String.mk
      ('/' ::
        (match joined with
         | '/' :: t => t
         | t => t))

/-- Models `(*url.URL).ResolveReference` on scheme/host/path URLs: an
absolute reference (or one carrying its own host) wins, inheriting only
the base scheme when it has none; otherwise host comes from the base and
the paths are merged with `resolvePath`. -/
def resolveReference (u ref : URLModel) : URLModel :=
  let scheme := if ref.scheme = "" then u.scheme else ref.scheme
  if ref.scheme ≠ "" ∨ ref.host ≠ "" then
    { scheme := scheme, host := ref.host, path := resolvePath ref.path "" }
  else
    { scheme := scheme, host := u.host, path := resolvePath u.path ref.path }

/-- Models `(*url.URL).Parse(ref)`: parse `ref` with `url.Parse`, then
resolve it against the receiver.  This is the function the shadowed
`url.Parse(cfg.WSURL)` call in `NewServer` actually invokes. -/
def urlParseRef (base : URLModel) (ref : String) : Except String URLModel :=
  (urlParse ref).map (resolveReference base)

/-! ## Method matcher and server construction -/

/-- Modelled from the spec: validity of a single allow-list pattern for
the Method Matcher (`newMatcher`), whose source file is absent from
`src/`.  Per the spec, construction fails when "a pattern is empty or
contains unsupported wildcard placement (wildcard only as a trailing
`*`)": a pattern is valid iff it is non-empty and `*` occurs, if at all,
only as its final character. -/
def validPattern (p : String) : Bool :=
  p ≠ "" && (p.toList.dropLast.all (fun c => c ≠ '*'))

/-- Modelled from the spec: `newMatcher` builds the Method Matcher from
the allow-list, failing with `InvalidPattern` when any pattern is
invalid (the matcher itself is kept as the validated pattern list; no
claim exercises membership queries). -/
def newMatcher (patterns : List String) : Except String (List String) :=
  if patterns.all validPattern then Except.ok patterns
  else Except.error "invalid pattern"

/-- Models the `ConfigData` struct of `main.go` (uint64 fields as `Nat`,
ints as `Int`). -/
structure ConfigData where
  Port : String
  URL : String
  WSURL : String
  Allow : List String
  RPM : Int
  NoLimit : List String
  BlockRangeLimit : Nat
  MinGasPrice : Nat
deriving DecidableEq

/-- Models the `Server` struct of `proxy.go` after `NewServer` populated
it: the reverse-proxy target, the WebSocket proxy target, the embedded
`myTransport` fields set by `NewServer`, and the limiters state. -/
structure Server where
  target : URLModel
  wsTarget : URLModel
  requestsPerMinuteLimit : Int
  minGasPrice : Nat
  blockRangeLimit : Nat
  url : String
  matcher : List String
  lims : Limiters
deriving DecidableEq

/-- Models `ConfigData.NewServer` from `proxy.go`: parse `cfg.URL` with
`url.Parse`; parse `cfg.WSURL` with the *shadowed* `url.Parse`, i.e.
`(*url.URL).Parse` on the parsed HTTP origin (`urlParseRef`); copy the
transport fields; build the matcher (returning its error on failure);
initialise the visitors map empty and the exempt set from `cfg.NoLimit`. -/
def NewServer (cfg : ConfigData) : Except String Server :=
  match urlParse cfg.URL with
  | Except.error e => Except.error e
  | Except.ok u =>
    match urlParseRef u cfg.WSURL with
    | Except.error e => Except.error e
    | Except.ok wsu =>
      match newMatcher cfg.Allow with
      | Except.error e => Except.error e
      | Except.ok m =>
        Except.ok
          { target := u
            wsTarget := wsu
            requestsPerMinuteLimit := cfg.RPM
            minGasPrice := cfg.MinGasPrice
            blockRangeLimit := cfg.BlockRangeLimit
            url := cfg.URL
            matcher := m
            lims := { noLimitIPs := cfg.NoLimit, visitors := [] } }

/-- The terminal state of `ConfigData.run`: the router is wired and
`http.ListenAndServe` has been reached with this server. -/
inductive RunOutcome where
  | serving : Server → RunOutcome
deriving DecidableEq

/-- Models `ConfigData.run` from `main.go` up to the point of serving:
`NewServer` failure is returned as "failed to start server" before any
route is registered or the listener started; otherwise the process
serves. -/
def run (cfg : ConfigData) : Except String RunOutcome :=
  match NewServer cfg with
  | Except.error e => Except.error ("failed to start server: " ++ e)
  | Except.ok s => Except.ok (RunOutcome.serving s)

/-- `Except.isOk` spelled locally for the result types used here. -/
def exceptOk {α : Type} (e : Except String α) : Bool :=
  match e with
  | Except.ok _ => true
  | Except.error _ => false

/-! ## Routing and response model

`ConfigData.run` (main.go) wires a chi router: `GET /` to
`Server.HomePage`, `HEAD /` to an inline `w.WriteHeader(200)` handler,
`/ws` to `Server.WSProxy` and the `/*` catch-all to `Server.RPCProxy`.
A response is modelled by what the claims observe: locally-determined
status and body (`none` when the reverse proxy streams them from the
upstream), the headers set by the handler itself, and whether the
request was handed to the upstream-forwarding proxy. -/

/-- An HTTP response as observed by the claims. -/
structure Response where
  status : Option Nat
  headers : List (String × String)
  body : Option String
  forwarded : Bool
deriving DecidableEq

/-- Models `Server.HomePage` (proxy.go): `io.Copy` of an empty byte slice
into the writer — an implicit 200, empty body, no header set, nothing
forwarded. -/
def homePageResponse : Response :=
  { status := some 200, headers := [], body := some "", forwarded := false }

/-- Models the inline `HEAD /` handler of `ConfigData.run` (main.go):
`w.WriteHeader(http.StatusOK)` — a bare 200, no body written, nothing
forwarded. -/
def headRootResponse : Response :=
  { status := some 200, headers := [], body := some "", forwarded := false }

/-- Models `Server.RPCProxy` (proxy.go): sets the `X-rpc-proxy: rpc-proxy`
header, then delegates to the reverse proxy (status and body stream from
the upstream through `myTransport`). -/
def rpcProxyResponse : Response :=
  { status := none, headers := [("X-rpc-proxy", "rpc-proxy")], body := none,
    forwarded := true }

/-- Models `Server.WSProxy` (proxy.go): sets the `X-rpc-proxy: rpc-proxy`
header, then delegates to the WebSocket proxy. -/
def wsProxyResponse : Response :=
  { status := none, headers := [("X-rpc-proxy", "rpc-proxy")], body := none,
    forwarded := true }

/-- Models the chi routing of `ConfigData.run` (main.go) for the routes it
registers: `GET /`, `HEAD /`, the exact route `/ws` and the `/*`
catch-all. -/
def serve (method path : String) : Response :=
  if method = "GET" ∧ path = "/" then homePageResponse
  else if method = "HEAD" ∧ path = "/" then headRootResponse
  else if path = "/ws" then wsProxyResponse
  else rpcProxyResponse

/-- Looks a header up in a response. -/
def lookupHeader (r : Response) (k : String) : Option String :=
  r.headers.lookup k

end RpcProxy

/-! ## Helper lemmas -/

namespace RpcProxy

/-- `Allow` never changes a limiter's rate or burst capacity: only the
token count and timestamp evolve. -/
theorem allow_preserves (l : RateLimiter) (now : ℚ) :
    (allow l now).2.limit = l.limit ∧ (allow l now).2.burst = l.burst := by
  obtain ⟨lim, b, tk, la⟩ := l
  cases lim with
  | inf => exact ⟨rfl, rfl⟩
  | finite r =>
    unfold allow
    dsimp only
    split <;> split <;> exact ⟨rfl, rfl⟩

/-- `AllowVisitor` on a non-exempt IP that already has a bucket: the
stored bucket is run through `Allow` and written back in place,
`added = false`. -/
theorem allowVisitor_mem (ls : Limiters) (ip : String) (rpm : Int) (now : ℚ)
    (l : RateLimiter) (hip : ip ∉ ls.noLimitIPs)
    (hl : ls.visitors.lookup ip = some l) :
    AllowVisitor ls ip rpm now =
      some ((allow l now).1, false,
        { ls with visitors := setVisitor ls.visitors ip (allow l now).2 }) := by
  simp only [AllowVisitor, getVisitor, hl, if_neg hip]

/-- `AllowVisitor` on a non-exempt IP with no bucket yet (and a non-zero
limit): a fresh limiter is built, consumed from once, and registered,
`added = true`. -/
theorem allowVisitor_fresh (ls : Limiters) (ip : String) (rpm : Int)
    (now : ℚ) (hip : ip ∉ ls.noLimitIPs)
    (hl : ls.visitors.lookup ip = none) (hrpm : rpm ≠ 0) :
    AllowVisitor ls ip rpm now =
      some ((allow (freshLimiter rpm) now).1, true,
        { ls with
            visitors := (ip, (allow (freshLimiter rpm) now).2) :: ls.visitors }) := by
  simp only [AllowVisitor, getVisitor, tryAddVisitor, hl, if_neg hip,
    if_neg hrpm, setVisitor]
  simp

end RpcProxy

/-! ## Claim theorems -/

namespace RpcProxy

/-- C1: for every IP in the configured exempt set, `AllowVisitor` returns
`allowed = true` and `added = false` — whatever the requests-per-minute
limit, the current time and the prior history encoded in the registry
state — and returns the registry untouched: no token is consumed and no
bucket is created or looked up (the exempt check precedes any access to
the visitors map). -/
theorem allowVisitor_exempt (ls : Limiters) (ip : String) (rpm : Int)
    (now : ℚ) (h : ip ∈ ls.noLimitIPs) :
    AllowVisitor ls ip rpm now = some (true, false, ls) := by
  simp only [AllowVisitor, if_pos h]

/-- Witness for C1: a registry exempting `10.0.0.1`, queried for that IP
with limit 2 at time 7. -/
theorem allowVisitor_exempt_witness :
    "10.0.0.1" ∈ (Limiters.mk ["10.0.0.1"] []).noLimitIPs ∧
      AllowVisitor (Limiters.mk ["10.0.0.1"] []) "10.0.0.1" 2 7 =
        some (true, false, Limiters.mk ["10.0.0.1"] []) :=
  ⟨by decide, allowVisitor_exempt (Limiters.mk ["10.0.0.1"] []) "10.0.0.1" 2 7
    (by decide)⟩

/-- C2 counterexample: with requests-per-minute limit `0` (which is
`≤ 0`), `AllowVisitor` for a fresh non-exempt IP does not return
`allowed = true`: the Go code panics with "integer divide by zero" in
`time.Minute / time.Duration(0)` inside `tryAddVisitor` (`none` in the
model), so the claim "allowed = true for every limit ≤ 0" is false. -/
theorem allowVisitor_zero_limit_counterexample :
    AllowVisitor (Limiters.mk [] []) "203.0.113.7" 0 1 = none := by decide

/-- `Allow` on a limiter with the infinite rate always succeeds and
leaves the limiter untouched (the library returns before reading the
bucket state). -/
theorem allow_inf (l : RateLimiter) (now : ℚ) (h : l.limit = RLimit.inf) :
    allow l now = (true, l) := by
  unfold allow
  rw [h]

/-- Writing back the very limiter an association list already stores
under a key leaves the list unchanged. -/
theorem setVisitor_lookup_self (ip : String) (l : RateLimiter) :
    ∀ vs : List (String × RateLimiter), vs.lookup ip = some l →
      setVisitor vs ip l = vs := by
  intro vs
  induction vs with
  | nil => intro _; rfl
  | cons p rest ih =>
    intro h
    obtain ⟨k, v⟩ := p
    by_cases hk : k = ip
    · subst hk
      unfold setVisitor
      rw [if_pos rfl]
      simp only [List.lookup, beq_self_eq_true, Option.some.injEq] at h
      rw [h]
    · have hbeq : (ip == k) = false :=
        beq_eq_false_iff_ne.mpr (fun he => hk he.symm)
      unfold setVisitor
      rw [if_neg hk]
      simp only [List.lookup, hbeq] at h
      rw [ih h]

/-- Iterated `AllowVisitor` for an exempt IP: every one of `k` calls is
allowed and the registry never changes. -/
theorem allowVisitorN_exempt_loop (ls : Limiters) (ip : String) (rpm : Int)
    (now : ℚ) (hip : ip ∈ ls.noLimitIPs) :
    ∀ k, allowVisitorN ls ip rpm now k = some (k, ls) := by
  intro k
  induction k with
  | zero => simp [allowVisitorN]
  | succ k ih =>
    have hx : AllowVisitor ls ip rpm now = some (true, false, ls) := by
      simp only [AllowVisitor, if_pos hip]
    unfold allowVisitorN
    rw [hx]
    dsimp only
    rw [ih]
    dsimp only
    rw [if_pos (rfl : true = true), Nat.add_comm 1 k]

/-- Iterated `AllowVisitor` on a registry whose bucket for the IP has the
infinite rate: every one of `k` calls is allowed and the registry never
changes. -/
theorem allowVisitorN_inf_loop (ls : Limiters) (ip : String) (rpm : Int)
    (now : ℚ) (l : RateLimiter) (hip : ip ∉ ls.noLimitIPs)
    (hl : ls.visitors.lookup ip = some l) (hinf : l.limit = RLimit.inf) :
    ∀ k, allowVisitorN ls ip rpm now k = some (k, ls) := by
  obtain ⟨nl, vs⟩ := ls
  intro k
  induction k with
  | zero => simp [allowVisitorN]
  | succ k ih =>
    have hmem := allowVisitor_mem (Limiters.mk nl vs) ip rpm now l hip hl
    rw [allow_inf l now hinf] at hmem
    dsimp only at hmem
    rw [setVisitor_lookup_self ip l vs hl] at hmem
    unfold allowVisitorN
    rw [hmem]
    dsimp only
    rw [ih]
    dsimp only
    rw [if_pos (rfl : true = true), Nat.add_comm 1 k]

/-- C2 corrected: for every strictly negative limit, rate limiting is
disabled entirely: starting from any registry with no bucket for the IP
yet, every one of `k` successive `AllowVisitor` calls returns
`allowed = true` — the first call installs a `rate.Inf` bucket (the
negative duration makes `rate.Every` return `rate.Inf`) and every later
call hits that bucket and always passes, while exempt IPs pass
trivially.  For limit `0` the first call for a non-exempt unseen IP
panics instead of allowing (see the counterexample). -/
theorem allowVisitor_negative_limit_allows (ls : Limiters) (ip : String)
    (rpm : Int) (now : ℚ) (k : Nat) (hrpm : rpm < 0)
    (hl : ls.visitors.lookup ip = none) :
    (allowVisitorN ls ip rpm now k).map Prod.fst = some k := by
  by_cases hip : ip ∈ ls.noLimitIPs
  · rw [allowVisitorN_exempt_loop ls ip rpm now hip k]
    rfl
  · cases k with
    | zero => simp [allowVisitorN]
    | succ k =>
      have hrpm0 : rpm ≠ 0 := by omega
      have hd : Int.tdiv nsPerMinute rpm ≤ 0 :=
        Int.tdiv_nonpos (by norm_num [nsPerMinute]) (le_of_lt hrpm)
      have hinf : (freshLimiter rpm).limit = RLimit.inf := by
        simp [freshLimiter, newLimiter, rateEvery, hd]
      have hfr := allowVisitor_fresh ls ip rpm now hip hl hrpm0
      rw [allow_inf (freshLimiter rpm) now hinf] at hfr
      dsimp only at hfr
      have hloop := allowVisitorN_inf_loop
        (Limiters.mk ls.noLimitIPs ((ip, freshLimiter rpm) :: ls.visitors))
        ip rpm now (freshLimiter rpm) hip (by simp) hinf k
      unfold allowVisitorN
      rw [hfr]
      dsimp only
      rw [hloop]
      dsimp only [Option.map]
      rw [if_pos (rfl : true = true), Nat.add_comm 1 k]

/-- Witness for C2's corrected theorem: limit `-1`, fresh IP, empty
registry, three successive calls — all three allowed. -/
theorem allowVisitor_negative_limit_allows_witness :
    (-1 : Int) < 0 ∧
      (allowVisitorN (Limiters.mk [] []) "203.0.113.8" (-1) 5 3).map
          Prod.fst = some 3 :=
  ⟨by decide, allowVisitor_negative_limit_allows (Limiters.mk [] [])
    "203.0.113.8" (-1) 5 3 (by decide) (by decide)⟩

/-- C8: `GET /` is answered locally with status 200 and an empty body,
and `HEAD /` locally with status 200 and no body; neither is forwarded
to the upstream. -/
theorem home_and_head_routes :
    serve "GET" "/" =
        { status := some 200, headers := [], body := some "",
          forwarded := false } ∧
      serve "HEAD" "/" =
        { status := some 200, headers := [], body := some "",
          forwarded := false } := by
  constructor
  · rfl
  · rfl

/-- C7 counterexample: the claim says every response, including those to
`GET /` and `HEAD /`, carries the `X-rpc-proxy` header; but `HomePage`
and the inline `HEAD /` handler never set it, so those two responses
carry no such header. -/
theorem header_home_counterexample :
    lookupHeader (serve "GET" "/") "X-rpc-proxy" = none ∧
      lookupHeader (serve "HEAD" "/") "X-rpc-proxy" = none := by
  constructor
  · rfl
  · rfl

/-- C7 corrected: every route except `GET /` and `HEAD /` — that is,
everything served by `RPCProxy` or `WSProxy` — carries the fixed
`X-rpc-proxy: rpc-proxy` response header; the `GET /` and `HEAD /`
responses do not carry it (see the counterexample). -/
theorem header_on_proxied_routes (method path : String)
    (h1 : ¬(method = "GET" ∧ path = "/"))
    (h2 : ¬(method = "HEAD" ∧ path = "/")) :
    lookupHeader (serve method path) "X-rpc-proxy" = some "rpc-proxy" := by
  unfold serve
  rw [if_neg h1, if_neg h2]
  by_cases h3 : path = "/ws"
  · rw [if_pos h3]; rfl
  · rw [if_neg h3]; rfl

/-- Witness for C7's corrected theorem: a `POST /` request (the typical
JSON-RPC call) goes through `RPCProxy` and carries the header. -/
theorem header_on_proxied_routes_witness :
    ¬(("POST" = "GET") ∧ ("/" = "/")) ∧
      lookupHeader (serve "POST" "/") "X-rpc-proxy" = some "rpc-proxy" :=
  ⟨by decide, header_on_proxied_routes "POST" "/" (by decide) (by decide)⟩

end RpcProxy

namespace RpcProxy

/-- `Allow` at the limiter's own timestamp with an integer token count
`m ≤ burst`: it succeeds and decrements exactly when the bucket has
positive burst and at least one token, and otherwise leaves the limiter
unchanged. -/
theorem allow_at_last (l : RateLimiter) (r : ℚ) (m : Nat)
    (hlim : l.limit = RLimit.finite r) (htok : l.tokens = (m : ℚ))
    (hm : (m : Int) ≤ l.burst) :
    allow l l.last =
      if 1 ≤ l.burst ∧ 1 ≤ m then
        (true, { l with tokens := ((m - 1 : Nat) : ℚ) })
      else (false, l) := by
  have hmq : (m : ℚ) ≤ (l.burst : ℚ) := by exact_mod_cast hm
  unfold allow
  rw [hlim]
  dsimp only
  rw [if_neg (lt_irrefl l.last), htok]
  have h0 : (m : ℚ) + (l.last - l.last) * r = (m : ℚ) := by ring
  rw [h0, min_eq_right hmq]
  by_cases hb : 1 ≤ l.burst
  · by_cases h1 : 1 ≤ m
    · have hq : (0 : ℚ) ≤ (m : ℚ) - 1 := by
        have : (1 : ℚ) ≤ (m : ℚ) := by exact_mod_cast h1
        linarith
      rw [if_pos ⟨hb, hq⟩, if_pos ⟨hb, h1⟩]
      have hcast : ((m - 1 : Nat) : ℚ) = (m : ℚ) - 1 := by
        have h' : ((m - 1 : Nat) : Int) = (m : Int) - 1 := by omega
        have h'' : (((m - 1 : Nat) : Int) : ℚ) = ((m : ℚ) - 1) := by
          rw [h']; push_cast; ring
        exact_mod_cast h''
      rw [hcast]
    · have hm0 : m = 0 := by omega
      subst hm0
      rw [if_neg (fun h => by
          have := h.2
          norm_num at this),
        if_neg (fun h => h1 h.2), ← hlim, ← htok]
  · rw [if_neg (fun h => hb h.1), if_neg (fun h => hb h.1), ← hlim, ← htok]

/-- `Allow` on a freshly built limiter at a time `now` far enough from the
zero timestamp that the bucket has filled to capacity: with positive
burst the call succeeds leaving `burst - 1` tokens, with non-positive
burst it fails and leaves the limiter unchanged. -/
theorem allow_fresh_full (r : ℚ) (B : Int) (now : ℚ) (h0 : 0 ≤ now)
    (hfull : (B : ℚ) ≤ now * r) :
    allow (newLimiter (RLimit.finite r) B) now =
      if 1 ≤ B then
        (true, RateLimiter.mk (RLimit.finite r) B ((B : ℚ) - 1) now)
      else (false, newLimiter (RLimit.finite r) B) := by
  unfold allow newLimiter
  dsimp only
  rw [if_neg (not_lt.mpr h0)]
  have harith : (0 : ℚ) + (now - 0) * r = now * r := by ring
  rw [harith, min_eq_left hfull]
  by_cases hB : 1 ≤ B
  · have hq : (0 : ℚ) ≤ (B : ℚ) - 1 := by
      have : (1 : ℚ) ≤ (B : ℚ) := by exact_mod_cast hB
      linarith
    rw [if_pos ⟨hB, hq⟩, if_pos hB]
  · rw [if_neg (fun h => hB h.1), if_neg hB]

/-- Iterated `AllowVisitor` at one instant on a registry holding a single
bucket whose timestamp is that instant and whose token count is the
integer `m ≤ burst`: with positive burst, exactly `min k m` of `k` calls
are allowed; with non-positive burst, none are. -/
theorem allowVisitorN_consume (ip : String) (rpm : Int) (now : ℚ) (r : ℚ) :
    ∀ (k m : Nat) (l : RateLimiter),
      l.limit = RLimit.finite r → l.last = now → l.tokens = (m : ℚ) →
      (m : Int) ≤ l.burst →
      ∃ ls2, allowVisitorN (Limiters.mk [] [(ip, l)]) ip rpm now k =
        some ((if 1 ≤ l.burst then min k m else 0), ls2) := by
  intro k
  induction k with
  | zero =>
    intro m l _ _ _ _
    exact ⟨Limiters.mk [] [(ip, l)], by simp [allowVisitorN]⟩
  | succ k ih =>
    intro m l hlim hlast htok hm
    have hl : List.lookup ip [(ip, l)] = some l := by simp
    have hmem := allowVisitor_mem (Limiters.mk [] [(ip, l)]) ip rpm now l
      (List.not_mem_nil ip) hl
    have hallow := allow_at_last l r m hlim htok hm
    rw [hlast] at hallow
    by_cases hb : 1 ≤ l.burst
    · by_cases h1 : 1 ≤ m
      · rw [if_pos ⟨hb, h1⟩] at hallow
        have hm' : ((m - 1 : Nat) : Int) ≤
            (RateLimiter.mk l.limit l.burst ((m - 1 : Nat) : ℚ) now).burst := by
          dsimp only
          omega
        obtain ⟨ls2, hE⟩ := ih (m - 1)
          (RateLimiter.mk l.limit l.burst ((m - 1 : Nat) : ℚ) now) hlim rfl rfl hm'
        refine ⟨ls2, ?_⟩
        unfold allowVisitorN
        rw [hmem, hallow]
        dsimp only
        have hset : setVisitor [(ip, l)] ip
            (RateLimiter.mk l.limit l.burst ((m - 1 : Nat) : ℚ) now) =
            [(ip, RateLimiter.mk l.limit l.burst ((m - 1 : Nat) : ℚ) now)] := by
          simp [setVisitor]
        rw [hset]
        rw [hE]
        have hb2 : 1 ≤ (RateLimiter.mk l.limit l.burst ((m - 1 : Nat) : ℚ) now).burst := hb
        rw [if_pos hb2, if_pos hb, if_pos (rfl : true = true)]
        dsimp only
        have hc : 1 + min k (m - 1) = min (k + 1) m := by omega
        rw [hc]
      · rw [if_neg (fun h => h1 h.2)] at hallow
        obtain ⟨ls2, hE⟩ := ih m l hlim hlast htok hm
        refine ⟨ls2, ?_⟩
        unfold allowVisitorN
        rw [hmem, hallow]
        dsimp only
        have hset : setVisitor [(ip, l)] ip l = [(ip, l)] := by
          simp [setVisitor]
        rw [hset, hE]
        rw [if_pos hb, if_pos hb, if_neg (by decide : ¬(false = true))]
        dsimp only
        have hc : 0 + min k m = min (k + 1) m := by omega
        rw [hc]
    · rw [if_neg (fun h => hb h.1)] at hallow
      obtain ⟨ls2, hE⟩ := ih m l hlim hlast htok hm
      refine ⟨ls2, ?_⟩
      unfold allowVisitorN
      rw [hmem, hallow]
      dsimp only
      have hset : setVisitor [(ip, l)] ip l = [(ip, l)] := by
        simp [setVisitor]
      rw [hset, hE]
      rw [if_neg hb, if_neg hb, if_neg (by decide : ¬(false = true))]

end RpcProxy

namespace RpcProxy

/-- `Allow` with non-positive burst and a finite rate always fails, and
(when the clock has not run backwards) leaves the limiter unchanged. -/
theorem allow_no_burst (l : RateLimiter) (r : ℚ) (now : ℚ)
    (hlim : l.limit = RLimit.finite r) (hb : ¬ 1 ≤ l.burst)
    (hlast : l.last ≤ now) :
    allow l now = (false, l) := by
  unfold allow
  rw [hlim]
  dsimp only
  rw [if_neg (not_lt.mpr hlast), if_neg (fun h => hb h.1), ← hlim]

/-- Iterated `AllowVisitor` on a registry holding a single bucket with a
finite rate and non-positive burst: every call is denied and the
registry never changes. -/
theorem allowVisitorN_no_burst (ip : String) (rpm : Int) (now r : ℚ)
    (l : RateLimiter) (hlim : l.limit = RLimit.finite r)
    (hb : ¬ 1 ≤ l.burst) (hlast : l.last ≤ now) :
    ∀ k, allowVisitorN (Limiters.mk [] [(ip, l)]) ip rpm now k =
      some (0, Limiters.mk [] [(ip, l)]) := by
  intro k
  induction k with
  | zero => simp [allowVisitorN]
  | succ k ih =>
    have hl : List.lookup ip [(ip, l)] = some l := by simp
    have hmem := allowVisitor_mem (Limiters.mk [] [(ip, l)]) ip rpm now l
      (List.not_mem_nil ip) hl
    have ha := allow_no_burst l r now hlim hb hlast
    unfold allowVisitorN
    rw [hmem, ha]
    dsimp only
    have hset : setVisitor [(ip, l)] ip l = [(ip, l)] := by simp [setVisitor]
    rw [hset, ih]
    dsimp only
    rw [if_neg (by decide : ¬(false = true))]

end RpcProxy

namespace RpcProxy

/-- C4: for every non-exempt IP (under a non-zero limit; the limit-zero
panic is settled by C2's counterexample): when the IP has no bucket, the
call creates and registers exactly one bucket — the new visitors list is
the old one, which had no entry for this IP, with a single new entry in
front — and returns `added = true`; when the IP already has a bucket
`l`, the call returns `added = false` and only updates the registered
entry in place to the `Allow`-evolution of that very bucket, whose rate
and burst capacity are unchanged.  Neither path removes or replaces any
entry: buckets persist for the process lifetime (the source has no
eviction operation at all). -/
theorem allowVisitor_bucket_lifecycle (ls : Limiters) (ip : String)
    (rpm : Int) (now : ℚ) (hip : ip ∉ ls.noLimitIPs) (hrpm : rpm ≠ 0) :
    (ls.visitors.lookup ip = none →
      AllowVisitor ls ip rpm now =
        some ((allow (freshLimiter rpm) now).1, true,
          { ls with
              visitors :=
                (ip, (allow (freshLimiter rpm) now).2) :: ls.visitors })) ∧
    (∀ l, ls.visitors.lookup ip = some l →
      AllowVisitor ls ip rpm now =
          some ((allow l now).1, false,
            { ls with visitors := setVisitor ls.visitors ip (allow l now).2 }) ∧
        (allow l now).2.limit = l.limit ∧ (allow l now).2.burst = l.burst) :=
  ⟨fun hl => allowVisitor_fresh ls ip rpm now hip hl hrpm,
    fun l hl => ⟨allowVisitor_mem ls ip rpm now l hip hl, allow_preserves l now⟩⟩

/-- Witness for C4: a first call for `198.51.100.1` at limit 60 creates
the one bucket (`added = true`); a second call at the same instant
reuses it (`added = false`) and only its token count changes. -/
theorem allowVisitor_bucket_lifecycle_witness :
    AllowVisitor (Limiters.mk [] []) "198.51.100.1" 60 100 =
        some (true, true, Limiters.mk []
          [("198.51.100.1", RateLimiter.mk (RLimit.finite 1) 6 5 100)]) ∧
      AllowVisitor (Limiters.mk []
          [("198.51.100.1", RateLimiter.mk (RLimit.finite 1) 6 5 100)])
          "198.51.100.1" 60 100 =
        some (true, false, Limiters.mk []
          [("198.51.100.1", RateLimiter.mk (RLimit.finite 1) 6 4 100)]) := by
  have ht1 : Int.tdiv (60000000000 : Int) 60 = 1000000000 := by decide
  have ht2 : Int.tdiv (60 : Int) 10 = 6 := by decide
  constructor
  · have h := (allowVisitor_bucket_lifecycle (Limiters.mk [] []) "198.51.100.1"
      60 100 (by decide) (by decide)).1 rfl
    rw [h]
    simp only [freshLimiter, newLimiter, rateEvery, nsPerMinute, allow, ht1,
      ht2, setVisitor]
    norm_num [min_def]
  · have h := ((allowVisitor_bucket_lifecycle (Limiters.mk []
        [("198.51.100.1", RateLimiter.mk (RLimit.finite 1) 6 5 100)])
        "198.51.100.1" 60 100 (by decide) (by decide)).2
      (RateLimiter.mk (RLimit.finite 1) 6 5 100) (by decide)).1
    rw [h]
    simp only [allow, setVisitor]
    norm_num [min_def]

/-- C3 counterexample: with limit `N = 5` the claim promises burst
capacity `max(5/10, 1) = 1`, so a fresh IP could make one instant
request.  The code has no minimum: the created bucket's burst is
`5/10 = 0` and even the very first request from a fresh non-exempt IP
(at time 3600, a full bucket) is denied. -/
theorem allowVisitor_no_min_burst_counterexample :
    (tryAddVisitor (Limiters.mk [] []) "203.0.113.7" 5).map
        (fun x => x.1.burst) = some 0 ∧
      allowedOf (AllowVisitor (Limiters.mk [] []) "203.0.113.7" 5 3600) =
        some false := by
  constructor
  · decide
  · decide

/-- C3 corrected: for limit `N > 0` (and at most one token per
nanosecond, i.e. `N ≤ 60·10⁹`), the bucket created on first sight of a
non-exempt IP has burst capacity exactly `N/10` (integer division, no
minimum), so a fresh IP whose first request arrives when the bucket is
full — `now * rate ≥ burst` — gets exactly `min k (N/10)` of `k`
instantaneous requests through: up to `N/10` instantly and then
throttled, and with `N < 10` the burst is `0` and every request is
denied, including the very first. -/
theorem allowVisitor_burst_no_minimum (ip : String) (rpm : Int) (now : ℚ)
    (k : Nat) (h1 : 0 < rpm) (h2 : rpm ≤ nsPerMinute) (h0 : 0 ≤ now)
    (hfull : ((Int.tdiv rpm 10 : Int) : ℚ) ≤
      now * (1000000000 / ((Int.tdiv nsPerMinute rpm : Int) : ℚ))) :
    (freshLimiter rpm).burst = Int.tdiv rpm 10 ∧
      (allowVisitorN (Limiters.mk [] []) ip rpm now k).map Prod.fst =
        some (min k (Int.tdiv rpm 10).toNat) := by
  have hd1 : 1 ≤ Int.tdiv nsPerMinute rpm := by
    rw [Int.tdiv_eq_ediv (by norm_num [nsPerMinute]) h1.le]
    rw [Int.le_ediv_iff_mul_le h1]
    simp only [nsPerMinute] at h2 ⊢
    omega
  have hfresh : freshLimiter rpm =
      newLimiter
        (RLimit.finite (1000000000 / ((Int.tdiv nsPerMinute rpm : Int) : ℚ)))
        (Int.tdiv rpm 10) := by
    unfold freshLimiter rateEvery
    rw [if_neg (not_le.mpr (by omega : (0 : Int) < Int.tdiv nsPerMinute rpm))]
  have hB0 : 0 ≤ Int.tdiv rpm 10 := Int.tdiv_nonneg h1.le (by norm_num)
  refine ⟨by rw [hfresh]; rfl, ?_⟩
  cases k with
  | zero => simp [allowVisitorN]
  | succ k =>
    have hrpm0 : rpm ≠ 0 := by omega
    have hfr := allowVisitor_fresh (Limiters.mk [] []) ip rpm now
      (List.not_mem_nil ip) rfl hrpm0
    have hfull2 := allow_fresh_full
      (1000000000 / ((Int.tdiv nsPerMinute rpm : Int) : ℚ)) (Int.tdiv rpm 10)
      now h0 hfull
    rw [← hfresh] at hfull2
    by_cases hB : 1 ≤ Int.tdiv rpm 10
    · rw [if_pos hB] at hfull2
      have hcast : (((Int.tdiv rpm 10 - 1).toNat : Nat) : ℚ) =
          ((Int.tdiv rpm 10 : Int) : ℚ) - 1 := by
        have ha : (((Int.tdiv rpm 10 - 1).toNat : Nat) : Int) =
            Int.tdiv rpm 10 - 1 := Int.toNat_of_nonneg (by omega)
        have hb2 : ((((Int.tdiv rpm 10 - 1).toNat : Nat) : Int) : ℚ) =
            ((Int.tdiv rpm 10 : Int) : ℚ) - 1 := by
          rw [ha]; push_cast; ring
        exact_mod_cast hb2
      obtain ⟨ls2, hE⟩ := allowVisitorN_consume ip rpm now
        (1000000000 / ((Int.tdiv nsPerMinute rpm : Int) : ℚ)) k
        (Int.tdiv rpm 10 - 1).toNat
        (RateLimiter.mk
          (RLimit.finite (1000000000 / ((Int.tdiv nsPerMinute rpm : Int) : ℚ)))
          (Int.tdiv rpm 10) (((Int.tdiv rpm 10 : Int) : ℚ) - 1) now)
        rfl rfl (by rw [hcast]) (by dsimp only; omega)
      unfold allowVisitorN
      rw [hfr, hfull2]
      dsimp only
      rw [hE]
      dsimp only
      rw [if_pos (hB :
          1 ≤ (RateLimiter.mk
            (RLimit.finite
              (1000000000 / ((Int.tdiv nsPerMinute rpm : Int) : ℚ)))
            (Int.tdiv rpm 10) (((Int.tdiv rpm 10 : Int) : ℚ) - 1) now).burst),
        if_pos (rfl : true = true)]
      dsimp only [Option.map]
      have hc : 1 + min k (Int.tdiv rpm 10 - 1).toNat =
          min (k + 1) (Int.tdiv rpm 10).toNat := by omega
      rw [hc]
    · rw [if_neg hB] at hfull2
      have hnb := allowVisitorN_no_burst ip rpm now
        (1000000000 / ((Int.tdiv nsPerMinute rpm : Int) : ℚ))
        (freshLimiter rpm) (by rw [hfresh]; rfl) hB (by rw [hfresh]; exact h0) k
      unfold allowVisitorN
      rw [hfr, hfull2]
      dsimp only
      rw [hnb]
      dsimp only [Option.map]
      rw [if_neg (by decide : ¬(false = true))]
      have hz : (Int.tdiv rpm 10).toNat = 0 := by omega
      rw [hz]
      simp

/-- Witness for C3's corrected theorem: limit 30, a fresh IP at time
3600 issuing 5 instantaneous requests — burst is `30/10 = 3` and exactly
`min 5 3 = 3` go through. -/
theorem allowVisitor_burst_no_minimum_witness :
    (0 : Int) < 30 ∧ (30 : Int) ≤ nsPerMinute ∧
      (freshLimiter 30).burst = Int.tdiv 30 10 ∧
      (allowVisitorN (Limiters.mk [] []) "203.0.113.11" 30 3600 5).map
          Prod.fst = some (min 5 (Int.tdiv (30 : Int) 10).toNat) := by
  have h := allowVisitor_burst_no_minimum "203.0.113.11" 30 3600 5
    (by decide) (by decide) (by norm_num)
    (by
      have ht : Int.tdiv nsPerMinute (30 : Int) = 2000000000 := by decide
      have ht2 : Int.tdiv (30 : Int) 10 = 3 := by decide
      rw [ht, ht2]
      norm_num)
  exact ⟨by decide, by decide, h.1, h.2⟩

/-- For a positive limit of at most `60·10⁹`, the duration division in
`tryAddVisitor` is positive, so the fresh limiter's rate is the finite
`10⁹ / ⌊60·10⁹ / rpm⌋` tokens per second. -/
theorem freshLimiter_finite (rpm : Int) (h1 : 0 < rpm)
    (h2 : rpm ≤ nsPerMinute) :
    freshLimiter rpm =
      newLimiter
        (RLimit.finite (1000000000 / ((Int.tdiv nsPerMinute rpm : Int) : ℚ)))
        (Int.tdiv rpm 10) := by
  have hd1 : 1 ≤ Int.tdiv nsPerMinute rpm := by
    rw [Int.tdiv_eq_ediv (by norm_num [nsPerMinute]) h1.le]
    rw [Int.le_ediv_iff_mul_le h1]
    simp only [nsPerMinute] at h2 ⊢
    omega
  unfold freshLimiter rateEvery
  rw [if_neg (not_le.mpr (by omega : (0 : Int) < Int.tdiv nsPerMinute rpm))]

/-- C6 counterexample: the claim promises exactly one token per `60/N`
seconds.  At `N = 7` the bucket `tryAddVisitor` registers refills at
`10⁹ / ⌊60·10⁹/7⌋ = 10⁹/8571428571` tokens per second, which is not
`7/60` tokens per second (one token per `60/7` seconds): the truncating
integer division `time.Minute / time.Duration(7)` loses the fractional
nanoseconds. -/
theorem refill_rate_counterexample :
    (tryAddVisitor (Limiters.mk [] []) "203.0.113.12" 7).map
        (fun x => x.1.limit) =
      some (RLimit.finite ((1000000000 : ℚ) / 8571428571)) ∧
      ((1000000000 : ℚ) / 8571428571) ≠ 7 / 60 := by
  constructor
  · have hfr := freshLimiter_finite 7 (by decide) (by decide)
    have ht : Int.tdiv nsPerMinute (7 : Int) = 8571428571 := by decide
    rw [ht] at hfr
    simp only [tryAddVisitor, List.lookup, hfr, newLimiter]
    norm_num
  · norm_num

/-- C6 corrected: the bucket created for limit `N` (with `0 < N ≤ 60·10⁹`)
refills at `10⁹ / ⌊60·10⁹/N⌋` tokens per second — exactly one token per
`⌊60·10⁹/N⌋` *nanoseconds*, which equals `60/N` seconds only when `N`
divides `60·10⁹`: an empty bucket allows a request again after exactly
that interval has elapsed, and after any shorter elapsed time `s` (with
`s · rate < 1`) it still rejects. -/
theorem refill_interval_truncated (ip : String) (rpm B : Int) (t s : ℚ)
    (h1 : 0 < rpm) (h2 : rpm ≤ nsPerMinute) (hB : 1 ≤ B) (ht : 0 ≤ t)
    (hs : 0 ≤ s)
    (hshort : s * (1000000000 / ((Int.tdiv nsPerMinute rpm : Int) : ℚ)) < 1) :
    (tryAddVisitor (Limiters.mk [] []) ip rpm).map (fun x => x.1.limit) =
        some (RLimit.finite
          (1000000000 / ((Int.tdiv nsPerMinute rpm : Int) : ℚ))) ∧
      (allow (RateLimiter.mk
          (RLimit.finite (1000000000 / ((Int.tdiv nsPerMinute rpm : Int) : ℚ)))
          B 0 t)
        (t + ((Int.tdiv nsPerMinute rpm : Int) : ℚ) / 1000000000)).1 = true ∧
      (allow (RateLimiter.mk
          (RLimit.finite (1000000000 / ((Int.tdiv nsPerMinute rpm : Int) : ℚ)))
          B 0 t)
        (t + s)).1 = false := by
  have hd1 : 1 ≤ Int.tdiv nsPerMinute rpm := by
    rw [Int.tdiv_eq_ediv (by norm_num [nsPerMinute]) h1.le]
    rw [Int.le_ediv_iff_mul_le h1]
    simp only [nsPerMinute] at h2 ⊢
    omega
  have hdq : (0 : ℚ) < ((Int.tdiv nsPerMinute rpm : Int) : ℚ) := by
    exact_mod_cast (by omega : (0 : Int) < Int.tdiv nsPerMinute rpm)
  have hBq : (1 : ℚ) ≤ (B : ℚ) := by exact_mod_cast hB
  refine ⟨?_, ?_, ?_⟩
  · rw [show (tryAddVisitor (Limiters.mk [] []) ip rpm) =
        some (freshLimiter rpm, true,
          Limiters.mk [] [(ip, freshLimiter rpm)]) from by
      simp only [tryAddVisitor, List.lookup]
      rw [if_neg (by omega : ¬ rpm = 0)]]
    rw [freshLimiter_finite rpm h1 h2]
    rfl
  · unfold allow
    dsimp only
    have hpos : (0 : ℚ) <
        ((Int.tdiv nsPerMinute rpm : Int) : ℚ) / 1000000000 := by positivity
    rw [if_neg (not_lt.mpr (by linarith))]
    have harith : (0 : ℚ) +
        (t + ((Int.tdiv nsPerMinute rpm : Int) : ℚ) / 1000000000 - t) *
          (1000000000 / ((Int.tdiv nsPerMinute rpm : Int) : ℚ)) = 1 := by
      field_simp
      ring
    rw [harith, min_eq_right hBq]
    rw [if_pos ⟨hB, by norm_num⟩]
  · unfold allow
    dsimp only
    rw [if_neg (not_lt.mpr (by linarith))]
    have harith : (0 : ℚ) + (t + s - t) *
        (1000000000 / ((Int.tdiv nsPerMinute rpm : Int) : ℚ)) =
        s * (1000000000 / ((Int.tdiv nsPerMinute rpm : Int) : ℚ)) := by
      ring
    rw [harith, min_eq_right (le_trans hshort.le hBq)]
    rw [if_neg (fun h => absurd h.2 (not_le.mpr (by linarith)))]

/-- Witness for C6's corrected theorem: limit 7, burst 1, an empty bucket
at time 0 — the refill interval is 8571428571 ns (not 60/7 s); waiting
exactly that long admits one request, waiting 4 s (shorter than the
8.571... s interval) does not. -/
theorem refill_interval_truncated_witness :
    Int.tdiv nsPerMinute (7 : Int) = 8571428571 ∧ (0 : Int) < 7 ∧
      (0 : ℚ) ≤ 4 ∧
      4 * (1000000000 / ((Int.tdiv nsPerMinute (7 : Int) : Int) : ℚ)) < 1 ∧
      (tryAddVisitor (Limiters.mk [] []) "203.0.113.13" 7).map
          (fun x => x.1.limit) =
        some (RLimit.finite
          (1000000000 / ((Int.tdiv nsPerMinute (7 : Int) : Int) : ℚ))) ∧
      (allow (RateLimiter.mk
          (RLimit.finite
            (1000000000 / ((Int.tdiv nsPerMinute (7 : Int) : Int) : ℚ)))
          1 0 0)
        (0 + ((Int.tdiv nsPerMinute (7 : Int) : Int) : ℚ) / 1000000000)).1 =
        true ∧
      (allow (RateLimiter.mk
          (RLimit.finite
            (1000000000 / ((Int.tdiv nsPerMinute (7 : Int) : Int) : ℚ)))
          1 0 0)
        ((0 : ℚ) + 4)).1 = false := by
  have hshort :
      (4 : ℚ) * (1000000000 / ((Int.tdiv nsPerMinute (7 : Int) : Int) : ℚ)) <
        1 := by
    rw [(by decide : Int.tdiv nsPerMinute (7 : Int) = 8571428571)]
    norm_num
  have h := refill_interval_truncated "203.0.113.13" 7 1 0 4 (by decide)
    (by decide) (by decide) (by norm_num) (by norm_num) hshort
  exact ⟨by decide, by decide, by norm_num, hshort, h.1, h.2.1, h.2.2⟩

/-- C9: if the configured upstream origin URL fails to parse or any
allowed-method pattern is invalid, `NewServer` returns an error, so
`ConfigData.run` returns "failed to start server: ..." before wiring any
route or calling `http.ListenAndServe`: the process never begins
serving. -/
theorem newServer_config_error_stops (cfg : ConfigData)
    (h : exceptOk (urlParse cfg.URL) = false ∨
      exceptOk (newMatcher cfg.Allow) = false) :
    exceptOk (run cfg) = false := by
  unfold run NewServer
  cases hu : urlParse cfg.URL with
  | error e => rfl
  | ok u =>
    dsimp only
    cases hw : urlParseRef u cfg.WSURL with
    | error e => rfl
    | ok wsu =>
      dsimp only
      cases hm : newMatcher cfg.Allow with
      | error e => rfl
      | ok m =>
        exfalso
        rcases h with h | h
        · rw [hu] at h
          simp [exceptOk] at h
        · rw [hm] at h
          simp [exceptOk] at h

/-- Witness for C9: a configuration whose allow-list contains the invalid
pattern `*eth` (wildcard not in trailing position) never reaches the
listener. -/
theorem newServer_config_error_stops_witness :
    exceptOk (newMatcher ["eth_blockNumber", "*eth"]) = false ∧
      exceptOk (run (ConfigData.mk "8545" "http://127.0.0.1:8040"
        "ws://127.0.0.1:8041" ["eth_blockNumber", "*eth"] 1000 [] 0
        60000000000)) = false :=
  ⟨by decide, newServer_config_error_stops _ (Or.inr (by decide))⟩

/-- C10: because the local variable `url` in `NewServer` shadows the
`net/url` package, `cfg.WSURL` is parsed by `(*url.URL).Parse` on the
already-parsed HTTP origin rather than by the package-level absolute
parser: whenever the WebSocket origin string parses as a URL reference,
`NewServer` succeeds and stores `base.ResolveReference(ref)` as the
WebSocket target, so a relative `WSURL` string is not rejected but
resolved against the HTTP origin. -/
theorem newServer_wsurl_resolved (cfg : ConfigData) (base ref : URLModel)
    (m : List String) (hu : urlParse cfg.URL = Except.ok base)
    (hw : urlParse cfg.WSURL = Except.ok ref)
    (hm : newMatcher cfg.Allow = Except.ok m) :
    (NewServer cfg).map Server.wsTarget =
      Except.ok (resolveReference base ref) := by
  unfold NewServer urlParseRef
  rw [hu, hw, hm]
  rfl

/-- Witness for C10: with HTTP origin `http://127.0.0.1:8040` and the
relative WebSocket origin string `ws`, `NewServer` succeeds and the
WebSocket target is `http://127.0.0.1:8040/ws` — scheme and host
inherited from the HTTP origin, the relative path resolved against it,
nothing rejected. -/
theorem newServer_wsurl_resolved_witness :
    urlParse "http://127.0.0.1:8040" =
        Except.ok (URLModel.mk "http" "127.0.0.1:8040" "") ∧
      urlParse "ws" = Except.ok (URLModel.mk "" "" "ws") ∧
      (NewServer (ConfigData.mk "8545" "http://127.0.0.1:8040" "ws" []
          1000 [] 0 60000000000)).map Server.wsTarget =
        Except.ok (resolveReference (URLModel.mk "http" "127.0.0.1:8040" "")
          (URLModel.mk "" "" "ws")) ∧
      resolveReference (URLModel.mk "http" "127.0.0.1:8040" "")
          (URLModel.mk "" "" "ws") =
        URLModel.mk "http" "127.0.0.1:8040" "/ws" :=
  ⟨by rfl, by rfl,
    newServer_wsurl_resolved _ (URLModel.mk "http" "127.0.0.1:8040" "")
      (URLModel.mk "" "" "ws") [] (by rfl) (by rfl) (by rfl),
    by rfl⟩

end RpcProxy
